import Mathlib

/-
Verification of the secondary-structure resolution and file-dispatch logic of
the MolecularNodes local-file importer (addons/molecularnodes/io/local.py).

Modelling conventions:
* mmCIF annotation categories (struct_conf, struct_sheet_range) are modelled
  as lists of typed rows, i.e. the looped form returned by the external
  parser, with the numeric columns already converted to integers (the Python
  code converts with .astype(int)).  get_category returning None for an
  absent category is modelled with Option; a present category is `some rows`.
* The atom array is a list of per-atom records carrying the fields the code
  reads: chain_id, res_id, and the per-atom verdict of the external
  struc.filter_amino_acids call (field `amino`).  Float coordinates are never
  read by any routine modelled here, so they are carried opaquely as integer
  triples.
* Python exceptions are modelled with Except: NoSecondaryStructureError and
  the KeyError that `lookup[chain_id]` raises when a chain has no annotation
  entry; in `load`, the UnboundLocalError raised by reading the local `mol`
  when the extension was not recognised.
* External bond-computation routines (connect_via_residue_names,
  connect_via_distances) are parameters of the model (structure ExternalLib);
  their results are tagged with their provenance (inductive Bonds).
-/

namespace MN

/-- Prefix test on character lists, used to build the substring test. -/
def startsWithL : List Char → List Char → Bool
  | [], _ => true
  | _ :: _, [] => false
  | a :: as, b :: bs => a == b && startsWithL as bs

/-- Substring occurrence test on character lists. -/
def hasSubL (pat : List Char) : List Char → Bool
  | [] => startsWithL pat []
  | b :: bs => startsWithL pat (b :: bs) || hasSubL pat bs

/-- Python's `pat in s` substring containment for strings. -/
def strHasSub (s pat : String) : Bool :=
  hasSubL pat.data s.data

/-- local.py lines 95-102: convert a struct_conf id string to
1 (helix) / 2 (strand) / 3 (loop). -/
def ss_id_to_numeric (i : String) : Int :=
  if strHasSub i ("HELX") then 1
  else if strHasSub i ("STRN") then 2
  else 3

/-- One row of the struct_conf category (the columns local.py reads). -/
structure ConfEntry where
  beg_auth_seq_id : Int
  end_auth_seq_id : Int
  end_auth_asym_id : String
  id : String
deriving DecidableEq

/-- One row of the struct_sheet_range category (the columns local.py reads). -/
structure SheetEntry where
  beg_auth_seq_id : Int
  end_auth_seq_id : Int
  end_auth_asym_id : String
  id : String
deriving DecidableEq

/-- The part of a parsed PDBx/CIF file the resolver consumes:
`none` models get_category returning None for an absent category. -/
structure CIFFile where
  struct_conf : Option (List ConfEntry)
  struct_sheet_range : Option (List SheetEntry)
deriving DecidableEq

/-- Per-atom record with the fields local.py reads.  `amino` is the verdict
of the external struc.filter_amino_acids call for this atom. -/
structure AtomRec where
  chain_id : String
  res_id : Int
  amino : Bool
  coord : Int × Int × Int
deriving DecidableEq

/-- A bond table tagged with how it was obtained. -/
inductive Bonds where
  | fromFile : List (Nat × Nat) → Bonds
  | viaResidueNames : List (Nat × Nat) → Bonds
  | viaDistances : List (Nat × Nat) → Bonds
deriving DecidableEq

/-- The atom array (or array stack): per-atom records, an optional bond
table, and named per-atom integer columns attached by set_annotation. -/
structure AtomArr where
  atoms : List AtomRec
  bonds : Option Bonds
  annots : List (String × List Int)
deriving DecidableEq

/-- Exceptions get_ss_mmcif can raise: its own NoSecondaryStructureError
(line 113) and the KeyError of `lookup[chain_id]` (line 148). -/
inductive SSErr where
  | noSecondaryStructure
  | keyError
deriving DecidableEq

deriving instance DecidableEq for Except

/-- One (start, end, chain, numeric label) entry of the merged
starts/ends/chains/id_int parallel arrays of get_ss_mmcif. -/
structure SSRow where
  start : Int
  stop : Int
  chain : String
  lab : Int
deriving DecidableEq

/-- np.arange(s, e + 1): the integers s, s+1, ..., e (empty when e < s). -/
def rangeInt (s e : Int) : List Int :=
  (List.range (e + 1 - s).toNat).map (fun (k : Nat) => s + (k : Int))

/-- The merged entry rows of get_ss_mmcif lines 114-126: struct_conf rows
first, then (when the category is present) struct_sheet_range rows whose
label text is forced to "STRN" (line 124). -/
def ssRows (conf : List ConfEntry) (sheet : Option (List SheetEntry)) : List SSRow :=
  let confRows := conf.map (fun e =>
    SSRow.mk e.beg_auth_seq_id e.end_auth_seq_id e.end_auth_asym_id (ss_id_to_numeric e.id))
  match sheet with
  | none => confRows
  | some sh => confRows ++ sh.map (fun e =>
      SSRow.mk e.beg_auth_seq_id e.end_auth_seq_id e.end_auth_asym_id (ss_id_to_numeric ("STRN")))

/-- The per-chain (residue id, label) pairs of get_ss_mmcif lines 128-143:
entries of the given chain, in array order, each expanded over its inclusive
residue range. -/
def chainPairs (rows : List SSRow) (c : String) : List (Int × Int) :=
  ((rows.filter (fun row => row.chain == c)).map
    (fun row => (rangeInt row.start row.stop).map (fun r => (r, row.lab)))).flatten

/-- Python dict(pairs) lookup with default: the value of the LAST pair whose
key matches wins, as with dict built from a list of key-value pairs. -/
def dictGet : List (Int × Int) → Int → Int → Int
  | [], _, d => d
  | p :: rest, k, d => dictGet rest k (if p.1 == k then p.2 else d)

/-- Line 148, `lookup[chain_id].get(res_id, 3)`: KeyError when the chain has
no entry at all, otherwise the chain dict lookup with default 3. -/
def lookupAtom (rows : List SSRow) (chainsL : List String) (c : String) (r : Int) :
    Except SSErr Int :=
  if chainsL.contains c then Except.ok (dictGet (chainPairs rows c) r 3)
  else Except.error SSErr.keyError

/-- Effectful map over a list that stops at the first raised exception,
mirroring the Python for-loop building `ss` (lines 145-148). -/
def mapOrErr (f : α → Except ε β) : List α → Except ε (List β)
  | [] => Except.ok []
  | a :: as =>
    match f a with
    | Except.error e => Except.error e
    | Except.ok b =>
      match mapOrErr f as with
      | Except.error e => Except.error e
      | Except.ok bs => Except.ok (b :: bs)

/-- Line 151, `arr[~struc.filter_amino_acids(mol)] = 0`: zero the label of
every atom that is not a standard amino acid. -/
def applyAminoMask (atoms : List AtomRec) (ss : List Int) : List Int :=
  (atoms.zip ss).map (fun p => if p.1.amino then p.2 else 0)

/-- local.py lines 108-152, get_ss_mmcif: raise NoSecondaryStructureError
when struct_conf is absent; otherwise merge struct_conf and (forced-strand)
struct_sheet_range rows, expand them into per-chain residue-to-label dicts,
look every atom up by (chain id, residue id) with loop default 3 (KeyError
when the chain is absent from the dict), and finally zero non-amino atoms. -/
def get_ss_mmcif (mol : AtomArr) (file : CIFFile) : Except SSErr (List Int) :=
  match file.struct_conf with
  | none => Except.error SSErr.noSecondaryStructure
  | some conf =>
    let rows := ssRows conf file.struct_sheet_range
    let chainsL := rows.map SSRow.chain
    match mapOrErr (fun a => lookupAtom rows chainsL a.chain_id a.res_id) mol.atoms with
    | Except.error e => Except.error e
    | Except.ok ss => Except.ok (applyAminoMask mol.atoms ss)

/-- get_ss_mmcif with the atom-array state threaded explicitly: every
statement of the Python body only reads `mol`, so the transcription returns
the array alongside the result (or the raised exception). -/
def get_ss_mmcif_run (mol : AtomArr) (file : CIFFile) :
    Except SSErr (List Int) × AtomArr :=
  match file.struct_conf with
  | none => (Except.error SSErr.noSecondaryStructure, mol)
  | some conf =>
    let rows := ssRows conf file.struct_sheet_range
    let chainsL := rows.map SSRow.chain
    match mapOrErr (fun a => lookupAtom rows chainsL a.chain_id a.res_id) mol.atoms with
    | Except.error e => (Except.error e, mol)
    | Except.ok ss => (Except.ok (applyAminoMask mol.atoms ss), mol)

/-- mol.set_annotation(name, vals): create or replace the named per-atom
integer column on the array. -/
def setAnnotColumn (mol : AtomArr) (name : String) (vals : List Int) : AtomArr :=
  { mol with annots := (name, vals) :: mol.annots.filter (fun p => p.1 != name) }

/-- The external bond-computation collaborators of biotite, as abstract
functions: connect_via_residue_names and connect_via_distances (each called
on the first model of the stack, with inter_residue=True). -/
structure ExternalLib where
  residueNameBonds : AtomArr → List (Nat × Nat)
  distanceBonds : AtomArr → List (Nat × Nat)

/-- `mol[0]` on an atom-array stack: biotite stack indexing returns a NEW
AtomArray value carrying the stack's per-atom columns and bond table; value
semantics make any later field update on the copy invisible to the stack,
which is exactly how the biotite object behaves under attribute assignment. -/
def stackModel0 (mol : AtomArr) : AtomArr :=
  mol

/-- local.py lines 165-189, open_structure_local_pdbx, from the point where
the external parser produced the atom array `parsed` (pdbx.get_structure, or
pdbx.get_component on InvalidFileError) and the category tables `file`:
try to attach the sec_struct column, swallowing only
NoSecondaryStructureError (a KeyError propagates); then, when the array has
no bonds, line 188 assigns the residue-name bonds to the fresh copy `mol[0]`
— an assignment the stack never sees — and returns the array and the file. -/
def open_structure_local_pdbx (lib : ExternalLib) (parsed : AtomArr) (file : CIFFile) :
    Except SSErr (AtomArr × CIFFile) :=
  let mol := parsed
  match annotStep mol file with
  | Except.error e => Except.error e
  | Except.ok mol1 =>
    let mol2 :=
      if mol1.bonds.isNone then
        let m0 := stackModel0 mol1
        let _m0updated :=
          { m0 with bonds := some (Bonds.viaResidueNames (lib.residueNameBonds m0)) }
        mol1
      else mol1
    Except.ok (mol2, file)
where
  /-- Lines 181-184: `try: mol.set_annotation('sec_struct', get_ss_mmcif(mol,
  file)) except NoSecondaryStructureError: pass`. -/
  annotStep (mol : AtomArr) (file : CIFFile) : Except SSErr AtomArr :=
    match get_ss_mmcif mol file with
    | Except.ok ss => Except.ok (setAnnotColumn mol ("sec_struct") ss)
    | Except.error SSErr.noSecondaryStructure => Except.ok mol
    | Except.error SSErr.keyError => Except.error SSErr.keyError

/-- Exceptions `load` can raise in the modelled fragment: the
UnboundLocalError of reading `mol` at line 61 when no branch bound it, and a
KeyError propagated out of get_ss_mmcif. -/
inductive LoadErr where
  | unboundLocalMol
  | keyError
deriving DecidableEq

/-- os.path.splitext(path)[1] for an absolute POSIX path: the suffix of the
basename from its last dot, empty when the basename has no dot or only
leading dots precede it. -/
def splitextExt (path : String) : String :=
  let base := (path.data.reverse.takeWhile (fun c => c != '/')).reverse
  if base.contains '.' then
    let revTail := base.reverse.takeWhile (fun c => c != '.')
    let pre := base.take (base.length - revTail.length - 1)
    if pre.any (fun c => c != '.') then String.mk ('.' :: revTail.reverse) else ""
  else ""

/-- local.py lines 26-93, load, up to the point where the atom array is
handed to the external scene-construction collaborator (create_molecule):
dispatch on the file extension, warning on an unrecognised one and leaving
the local `mol` unbound; then `if not mol.bonds` (line 61) reads `mol` —
an UnboundLocalError when it is unbound — and fills an absent bond table via
connect_via_distances on the first model.  `pdbParsed` models the result of
open_structure_local_pdb, `pdbxParsed`/`cif` the external parse results
consumed by open_structure_local_pdbx; assembly-transform parsing and the
scene/node glue are external collaborators outside the model.  The returned
pair is (warnings emitted, outcome). -/
def load (lib : ExternalLib) (pdbParsed : AtomArr) (pdbxParsed : AtomArr) (cif : CIFFile)
    (file_path : String) : List String × Except LoadErr AtomArr :=
  let file_ext := splitextExt file_path
  let dispatch : List String × Except LoadErr (Option AtomArr) :=
    if file_ext = ".pdb" then ([], Except.ok (some pdbParsed))
    else if file_ext = ".pdbx" ∨ file_ext = ".cif" then
      match open_structure_local_pdbx lib pdbxParsed cif with
      | Except.ok (m, _f) => ([], Except.ok (some m))
      | Except.error _e => ([], Except.error LoadErr.keyError)
    else (["Unable to open local file. Format not supported."], Except.ok none)
  match dispatch with
  | (warns, Except.error e) => (warns, Except.error e)
  | (warns, Except.ok none) => (warns, Except.error LoadErr.unboundLocalMol)
  | (warns, Except.ok (some mol)) =>
    let mol1 :=
      if mol.bonds.isNone then
        { mol with bonds := some (Bonds.viaDistances (lib.distanceBonds (stackModel0 mol))) }
      else mol
    (warns, Except.ok mol1)

/-- A concrete external library for evaluations: residue-name connectivity
and distance connectivity return visibly different bond lists. -/
def cexLib : ExternalLib :=
  ExternalLib.mk (fun _ => [(1, 2)]) (fun _ => [(3, 4)])

/-- A concrete bond-free single-atom array (chain A, residue 1, amino). -/
def cexMolA : AtomArr :=
  AtomArr.mk [AtomRec.mk ("A") 1 true (0, 0, 0)] none []

/-- A concrete CIF table set with no annotation categories at all. -/
def cexFileEmpty : CIFFile :=
  CIFFile.mk none none

/-- A concrete CIF table set: one helix entry for chain A, residues 10-20. -/
def cexFileHelixA : CIFFile :=
  CIFFile.mk (some [ConfEntry.mk 10 20 ("A") ("HELX_P1")]) none

/-- A concrete single-atom array on chain B (no annotation entry for B). -/
def cexMolB : AtomArr :=
  AtomArr.mk [AtomRec.mk ("B") 5 true (0, 0, 0)] none []

/-- The fields of an atom record that get_ss_mmcif actually reads:
chain id, residue id, and the amino-acid verdict. -/
def projAtom (a : AtomRec) : String × Int × Bool :=
  (a.chain_id, a.res_id, a.amino)

theorem mapOrErr_ok_of_forall {f : α → Except ε β} {g : α → β} :
    ∀ {l : List α}, (∀ a ∈ l, f a = Except.ok (g a)) →
      mapOrErr f l = Except.ok (l.map g)
  | [], _ => rfl
  | a :: as, h => by
    have ha := h a (List.mem_cons_self a as)
    have hrest := mapOrErr_ok_of_forall (l := as) (fun x hx => h x (List.mem_cons_of_mem a hx))
    simp [mapOrErr, ha, hrest]

theorem mapOrErr_ok_length {f : α → Except ε β} :
    ∀ {l : List α} {bs : List β}, mapOrErr f l = Except.ok bs → bs.length = l.length := by
  intro l
  induction l with
  | nil => intro bs h; cases h; rfl
  | cons a as ih =>
    intro bs h
    unfold mapOrErr at h
    cases hfa : f a with
    | error e => rw [hfa] at h; cases h
    | ok b =>
      rw [hfa] at h
      cases hrest : mapOrErr f as with
      | error e => rw [hrest] at h; cases h
      | ok bs2 =>
        rw [hrest] at h
        cases h
        simp [ih hrest]

theorem mapOrErr_error_mem {f : α → Except ε β} :
    ∀ {l : List α} {e : ε}, mapOrErr f l = Except.error e → ∃ a ∈ l, f a = Except.error e := by
  intro l
  induction l with
  | nil => intro e h; cases h
  | cons a as ih =>
    intro e h
    unfold mapOrErr at h
    cases hfa : f a with
    | error e2 =>
      rw [hfa] at h
      cases h
      exact ⟨a, List.mem_cons_self a as, hfa⟩
    | ok b =>
      rw [hfa] at h
      cases hrest : mapOrErr f as with
      | error e2 =>
        rw [hrest] at h
        cases h
        obtain ⟨x, hx, hfx⟩ := ih hrest
        exact ⟨x, List.mem_cons_of_mem a hx, hfx⟩
      | ok bs => rw [hrest] at h; cases h

theorem rangeInt_mem {s e r : Int} : r ∈ rangeInt s e ↔ s ≤ r ∧ r ≤ e := by
  constructor
  · intro hmem
    obtain ⟨k, hk, hkr⟩ := List.mem_map.mp hmem
    have hk2 := List.mem_range.mp hk
    omega
  · intro h
    refine List.mem_map.mpr ⟨(r - s).toNat, List.mem_range.mpr ?_, ?_⟩
    · omega
    · omega

theorem dictGet_append {ys : List (Int × Int)} :
    ∀ {xs : List (Int × Int)} {k d : Int},
      dictGet (xs ++ ys) k d = dictGet ys k (dictGet xs k d)
  | [], _, _ => rfl
  | p :: rest, k, d => by
    simp only [List.cons_append, dictGet]
    exact dictGet_append

theorem dictGet_of_forall_ne :
    ∀ {l : List (Int × Int)} {k d : Int}, (∀ p ∈ l, p.1 ≠ k) → dictGet l k d = d
  | [], _, _, _ => rfl
  | p :: rest, k, d, h => by
    have hp : (p.1 == k) = false := by
      simp [h p (List.mem_cons_self p rest)]
    simp only [dictGet, hp, if_neg Bool.false_ne_true]
    exact dictGet_of_forall_ne (fun q hq => h q (List.mem_cons_of_mem p hq))

theorem dictGet_const :
    ∀ {l : List (Int × Int)} {k d v : Int}, (∃ p ∈ l, p.1 = k) → (∀ p ∈ l, p.2 = v) →
      dictGet l k d = v := by
  intro l
  induction l with
  | nil => rintro k d v ⟨p, hp, _⟩ _; cases hp
  | cons p rest ih =>
    rintro k d v hmem hv
    by_cases hrest : ∃ q ∈ rest, q.1 = k
    · simp only [dictGet]
      exact ih hrest (fun q hq => hv q (List.mem_cons_of_mem p hq))
    · have hpk : p.1 = k := by
        obtain ⟨q, hq, hqk⟩ := hmem
        rcases List.mem_cons.mp hq with h | h
        · rw [← h]; exact hqk
        · exact absurd ⟨q, h, hqk⟩ hrest
      have hne : ∀ q ∈ rest, q.1 ≠ k := by
        intro q hq hqk
        exact hrest ⟨q, hq, hqk⟩
      simp only [dictGet, hpk]
      rw [dictGet_of_forall_ne hne]
      simp [hv p (List.mem_cons_self p rest)]

theorem dictGet_rangeMap {s e v k d : Int} :
    dictGet ((rangeInt s e).map (fun r => (r, v))) k d =
      if s ≤ k ∧ k ≤ e then v else d := by
  by_cases h : s ≤ k ∧ k ≤ e
  · rw [if_pos h]
    apply dictGet_const
    · exact ⟨(k, v), List.mem_map.mpr ⟨k, rangeInt_mem.mpr h, rfl⟩, rfl⟩
    · intro p hp
      obtain ⟨r, _, rfl⟩ := List.mem_map.mp hp
      rfl
  · rw [if_neg h]
    apply dictGet_of_forall_ne
    intro p hp
    obtain ⟨r, hr, rfl⟩ := List.mem_map.mp hp
    intro hk
    exact h (by rw [← hk]; exact rangeInt_mem.mp hr)

theorem chainPairs_mem {rows : List SSRow} {c : String} {p : Int × Int}
    (h : p ∈ chainPairs rows c) :
    ∃ row ∈ rows, row.chain = c ∧ row.start ≤ p.1 ∧ p.1 ≤ row.stop := by
  simp only [chainPairs, List.mem_flatten, List.mem_map, List.mem_filter] at h
  obtain ⟨l, ⟨row, ⟨hrow, hchain⟩, rfl⟩, hp⟩ := h
  obtain ⟨r, hr, rfl⟩ := List.mem_map.mp hp
  have := rangeInt_mem.mp hr
  exact ⟨row, hrow, by simpa using hchain, this.1, this.2⟩

theorem applyAminoMask_map {atoms : List AtomRec} {g : AtomRec → Int} :
    applyAminoMask atoms (atoms.map g) =
      atoms.map (fun a => if a.amino then g a else 0) := by
  induction atoms with
  | nil => rfl
  | cons a as ih => simpa [applyAminoMask] using ih

theorem applyAminoMask_getElem? :
    ∀ {atoms : List AtomRec} {ss : List Int} {i : Nat} {a : AtomRec} {s : Int},
      atoms[i]? = some a → ss[i]? = some s →
      (applyAminoMask atoms ss)[i]? = some (if a.amino then s else 0) := by
  intro atoms
  induction atoms with
  | nil => intro ss i a s h; cases h
  | cons x xs ih =>
    intro ss i a s ha hs
    cases ss with
    | nil => cases hs
    | cons y ys =>
      cases i with
      | zero =>
        simp only [List.getElem?_cons_zero, Option.some.injEq] at ha hs
        subst ha; subst hs
        simp [applyAminoMask]
      | succ j =>
        simpa [applyAminoMask] using ih (by simpa using ha) (by simpa using hs)

theorem applyAminoMask_length {atoms : List AtomRec} {ss : List Int} :
    (applyAminoMask atoms ss).length = min atoms.length ss.length := by
  simp [applyAminoMask]

theorem mapOrErr_congr {γ : Type} (proj : α → γ) (f : α → Except ε β) (F : γ → Except ε β)
    (hf : ∀ a, f a = F (proj a)) :
    ∀ {l1 l2 : List α}, l1.map proj = l2.map proj → mapOrErr f l1 = mapOrErr f l2 := by
  intro l1
  induction l1 with
  | nil =>
    intro l2 h
    cases l2 with
    | nil => rfl
    | cons b bs => cases h
  | cons a as ih =>
    intro l2 h
    cases l2 with
    | nil => cases h
    | cons b bs =>
      simp only [List.map_cons, List.cons.injEq] at h
      simp only [mapOrErr, hf a, hf b, h.1, ih h.2]

theorem applyAminoMask_congr :
    ∀ {l1 l2 : List AtomRec} {ss : List Int}, l1.map projAtom = l2.map projAtom →
      applyAminoMask l1 ss = applyAminoMask l2 ss := by
  intro l1
  induction l1 with
  | nil =>
    intro l2 ss h
    cases l2 with
    | nil => rfl
    | cons b bs => cases h
  | cons a as ih =>
    intro l2 ss h
    cases l2 with
    | nil => cases h
    | cons b bs =>
      simp only [List.map_cons, List.cons.injEq] at h
      cases ss with
      | nil => rfl
      | cons s ssr =>
        have hamino : a.amino = b.amino := congrArg (fun t => t.2.2) h.1
        simp only [applyAminoMask, List.zip_cons_cons, List.map_cons] at *
        rw [hamino, ih h.2]

/-- Claim C1: with a struct_conf helix entry for chain A residues 10-20 and a
struct_sheet_range entry for chain A residues 15-18, get_ss_mmcif labels
chain-A amino-acid atoms 1 on residues 10-14 and 19-20 and 2 on residues
15-18: the sheet entry is appended after the conf entry and, being later in
the per-chain dict construction, overwrites the helix label on every residue
id claimed by both.  (Stated for arrays of chain-A amino-acid atoms: an atom
of an unannotated chain makes the resolver raise KeyError instead — see the
C4 analysis — and a non-amino atom is forced to 0 — see C7.) -/
theorem c1_sheet_overrides_helix (atoms : List AtomRec) (b : Option Bonds)
    (an : List (String × List Int)) (hid sid : String)
    (hhelx : strHasSub hid ("HELX") = true)
    (hA : ∀ a ∈ atoms, a.chain_id = "A" ∧ a.amino = true) :
    ∃ L, get_ss_mmcif (AtomArr.mk atoms b an)
        (CIFFile.mk (some [ConfEntry.mk 10 20 ("A") hid])
          (some [SheetEntry.mk 15 18 ("A") sid])) = Except.ok L ∧
      ∀ (i : Nat) (a : AtomRec), atoms[i]? = some a →
        (((10 ≤ a.res_id ∧ a.res_id ≤ 14) ∨ (19 ≤ a.res_id ∧ a.res_id ≤ 20)) →
          L[i]? = some 1) ∧
        ((15 ≤ a.res_id ∧ a.res_id ≤ 18) → L[i]? = some 2) := by
  have hlab : ss_id_to_numeric hid = 1 := by
    unfold ss_id_to_numeric
    rw [if_pos hhelx]
  have h2 : ss_id_to_numeric ("STRN") = 2 := by decide
  have hrows : ssRows [ConfEntry.mk 10 20 ("A") hid] (some [SheetEntry.mk 15 18 ("A") sid]) =
      [SSRow.mk 10 20 ("A") 1, SSRow.mk 15 18 ("A") 2] := by
    simp [ssRows, hlab, h2]
  have hpairs : chainPairs [SSRow.mk 10 20 ("A") 1, SSRow.mk 15 18 ("A") 2] ("A") =
      ((rangeInt 10 20).map (fun r => (r, (1 : Int)))) ++
        ((rangeInt 15 18).map (fun r => (r, (2 : Int)))) := by
    simp [chainPairs]
  have hdict : ∀ r : Int,
      dictGet (chainPairs [SSRow.mk 10 20 ("A") 1, SSRow.mk 15 18 ("A") 2] ("A")) r 3 =
        if 15 ≤ r ∧ r ≤ 18 then 2 else if 10 ≤ r ∧ r ≤ 20 then 1 else 3 := by
    intro r
    rw [hpairs, dictGet_append, dictGet_rangeMap, dictGet_rangeMap]
  have hok : ∀ a ∈ atoms,
      lookupAtom [SSRow.mk 10 20 ("A") 1, SSRow.mk 15 18 ("A") 2]
          ([SSRow.mk 10 20 ("A") 1, SSRow.mk 15 18 ("A") 2].map SSRow.chain)
          a.chain_id a.res_id =
        Except.ok (if 15 ≤ a.res_id ∧ a.res_id ≤ 18 then 2
          else if 10 ≤ a.res_id ∧ a.res_id ≤ 20 then 1 else 3) := by
    intro a ha
    obtain ⟨hc, _⟩ := hA a ha
    rw [hc]
    unfold lookupAtom
    rw [if_pos (by decide :
      (([SSRow.mk 10 20 ("A") 1, SSRow.mk 15 18 ("A") 2].map SSRow.chain)).contains ("A") = true)]
    rw [hdict a.res_id]
  refine ⟨applyAminoMask atoms (atoms.map (fun a =>
    if 15 ≤ a.res_id ∧ a.res_id ≤ 18 then 2
    else if 10 ≤ a.res_id ∧ a.res_id ≤ 20 then 1 else 3)), ?_, ?_⟩
  · unfold get_ss_mmcif
    simp only
    rw [hrows, mapOrErr_ok_of_forall hok]
  · intro i a ha
    have hmem := List.getElem?_mem ha
    obtain ⟨hc, hamino⟩ := hA a hmem
    rw [applyAminoMask_map]
    constructor
    · intro hcond
      simp only [List.getElem?_map, ha, Option.map_some', hamino, if_pos]
      have hval : (if 15 ≤ a.res_id ∧ a.res_id ≤ 18 then (2 : Int)
          else if 10 ≤ a.res_id ∧ a.res_id ≤ 20 then 1 else 3) = 1 := by
        rcases hcond with h | h
        · rw [if_neg (by omega), if_pos (by omega)]
        · rw [if_neg (by omega), if_pos (by omega)]
      rw [hval]
    · intro hcond
      simp only [List.getElem?_map, ha, Option.map_some', hamino, if_pos]
      have hval : (if 15 ≤ a.res_id ∧ a.res_id ≤ 18 then (2 : Int)
          else if 10 ≤ a.res_id ∧ a.res_id ≤ 20 then 1 else 3) = 2 := by
        rw [if_pos hcond]
      rw [hval]

/-- Witness for C1 at a concrete three-atom chain-A array and the concrete
helix id of the spec's examples. -/
theorem c1_witness :
    ∃ L, get_ss_mmcif (AtomArr.mk [AtomRec.mk ("A") 12 true (0, 0, 0),
        AtomRec.mk ("A") 16 true (0, 0, 0), AtomRec.mk ("A") 20 true (0, 0, 0)] none [])
        (CIFFile.mk (some [ConfEntry.mk 10 20 ("A") ("HELX_LH_PP_P9")])
          (some [SheetEntry.mk 15 18 ("A") ("sheet1")])) = Except.ok L ∧
      ∀ (i : Nat) (a : AtomRec), [AtomRec.mk ("A") 12 true (0, 0, 0),
          AtomRec.mk ("A") 16 true (0, 0, 0), AtomRec.mk ("A") 20 true (0, 0, 0)][i]? = some a →
        (((10 ≤ a.res_id ∧ a.res_id ≤ 14) ∨ (19 ≤ a.res_id ∧ a.res_id ≤ 20)) →
          L[i]? = some 1) ∧
        ((15 ≤ a.res_id ∧ a.res_id ≤ 18) → L[i]? = some 2) :=
  c1_sheet_overrides_helix
    [AtomRec.mk ("A") 12 true (0, 0, 0), AtomRec.mk ("A") 16 true (0, 0, 0),
      AtomRec.mk ("A") 20 true (0, 0, 0)] none [] ("HELX_LH_PP_P9") ("sheet1")
    (by decide) (by decide)

/-- Claim C2 counterexample: on the unsupported extension ".xyz" the claim
says load terminates non-fatally with a null result; instead, after emitting
the warning, the code reads the unbound local `mol` at line 61 and raises a
fatal UnboundLocalError, modelled here as the error outcome. -/
theorem c2_load_unsupported_ext_counterexample :
    load cexLib cexMolA cexMolA cexFileEmpty "/tmp/model.xyz" =
      (["Unable to open local file. Format not supported."],
        Except.error LoadErr.unboundLocalMol) := by
  decide

/-- Claim C2 as amended: for every path whose extension is none of .pdb,
.pdbx, .cif, load emits the unsupported-format warning and then raises the
unbound-local error at the bond check; no structure and no null result are
ever returned to the caller. -/
theorem c2_amended_warn_then_unbound_error (lib : ExternalLib)
    (pdbParsed pdbxParsed : AtomArr) (cif : CIFFile) (path : String)
    (h1 : splitextExt path ≠ ".pdb") (h2 : splitextExt path ≠ ".pdbx")
    (h3 : splitextExt path ≠ ".cif") :
    load lib pdbParsed pdbxParsed cif path =
      (["Unable to open local file. Format not supported."],
        Except.error LoadErr.unboundLocalMol) := by
  unfold load
  simp only
  rw [if_neg h1, if_neg (not_or.mpr ⟨h2, h3⟩)]

/-- Witness for the amended C2 at a concrete ".gro" path. -/
theorem c2_witness :
    load cexLib cexMolA cexMolA cexFileEmpty "/tmp/trajectory.gro" =
      (["Unable to open local file. Format not supported."],
        Except.error LoadErr.unboundLocalMol) :=
  c2_amended_warn_then_unbound_error cexLib cexMolA cexMolA cexFileEmpty
    "/tmp/trajectory.gro" (by decide) (by decide) (by decide)

/-- Claim C3 (code bug, evaluated at the failing input): for a .cif file
whose parsed atom array has no bonds, line 188 computes residue-name bonds
but assigns them to the discarded stack copy `mol[0]`, so the array reaches
`load` still bond-free and line 62 fills its bonds via connect_via_distances
— not via connect_via_residue_names as the claim (and the code's own
comment at line 186) state.  With residue-name connectivity returning
[(1, 2)] and distance connectivity returning [(3, 4)], the returned bonds
are the distance-derived ones. -/
theorem c3_pdbx_bonds_actually_from_distances :
    load cexLib cexMolA cexMolA cexFileEmpty "/tmp/m.cif" =
      ([], Except.ok (AtomArr.mk cexMolA.atoms (some (Bonds.viaDistances [(3, 4)])) [])) ∧
    load cexLib cexMolA cexMolA cexFileEmpty "/tmp/m.cif" ≠
      ([], Except.ok (AtomArr.mk cexMolA.atoms (some (Bonds.viaResidueNames [(1, 2)])) [])) := by
  decide

/-- Claim C4 counterexample: an atom of chain B, while the only annotation
entry is for chain A, makes get_ss_mmcif raise KeyError (line 148 indexes
`lookup[chain_id]` unguarded) instead of receiving loop(3) as claimed. -/
theorem c4_unannotated_chain_counterexample :
    get_ss_mmcif cexMolB cexFileHelixA = Except.error SSErr.keyError ∧
    get_ss_mmcif cexMolB cexFileHelixA ≠ Except.ok [3] := by
  decide

/-- Claim C4 as amended: when every atom's chain has at least one
struct_conf/struct_sheet_range entry, the resolver succeeds, and every
amino-acid atom whose residue id lies outside all expanded ranges of its
chain gets loop(3); atoms of a chain with no entry at all instead make the
resolver raise KeyError (shown by the counterexample). -/
theorem c4_amended_loop_default (atoms : List AtomRec) (b : Option Bonds)
    (an : List (String × List Int)) (conf : List ConfEntry) (sheet : Option (List SheetEntry))
    (hchain : ∀ a ∈ atoms, a.chain_id ∈ (ssRows conf sheet).map SSRow.chain) :
    ∃ L, get_ss_mmcif (AtomArr.mk atoms b an) (CIFFile.mk (some conf) sheet) = Except.ok L ∧
      ∀ (i : Nat) (a : AtomRec), atoms[i]? = some a → a.amino = true →
        (∀ row ∈ ssRows conf sheet, row.chain = a.chain_id →
          ¬(row.start ≤ a.res_id ∧ a.res_id ≤ row.stop)) →
        L[i]? = some 3 := by
  have hok : ∀ a ∈ atoms,
      lookupAtom (ssRows conf sheet) ((ssRows conf sheet).map SSRow.chain) a.chain_id a.res_id =
        Except.ok (dictGet (chainPairs (ssRows conf sheet) a.chain_id) a.res_id 3) := by
    intro a ha
    have hc : ((ssRows conf sheet).map SSRow.chain).contains a.chain_id = true :=
      List.elem_iff.mpr (hchain a ha)
    simp only [lookupAtom, hc, if_pos]
  have hmap := mapOrErr_ok_of_forall
    (g := fun (a : AtomRec) => dictGet (chainPairs (ssRows conf sheet) a.chain_id) a.res_id 3) hok
  refine ⟨applyAminoMask atoms
    (atoms.map (fun a => dictGet (chainPairs (ssRows conf sheet) a.chain_id) a.res_id 3)), ?_, ?_⟩
  · unfold get_ss_mmcif
    simp only
    rw [hmap]
  · intro i a ha hamino hout
    rw [applyAminoMask_map]
    have h3 : dictGet (chainPairs (ssRows conf sheet) a.chain_id) a.res_id 3 = 3 := by
      apply dictGet_of_forall_ne
      intro p hp hpk
      obtain ⟨row, hrow, hrc, hs1, hs2⟩ := chainPairs_mem hp
      exact hout row hrow hrc ⟨by omega, by omega⟩
    simp [List.getElem?_map, ha, hamino, h3]

/-- Witness for the amended C4: a chain-A amino atom at residue 99, outside
the single annotated range 10-20 of chain A, gets loop(3). -/
theorem c4_witness :
    ∃ L, get_ss_mmcif (AtomArr.mk [AtomRec.mk ("A") 99 true (0, 0, 0)] none [])
        (CIFFile.mk (some [ConfEntry.mk 10 20 ("A") ("HELX_P1")]) none) = Except.ok L ∧
      ∀ (i : Nat) (a : AtomRec),
        [AtomRec.mk ("A") 99 true (0, 0, 0)][i]? = some a → a.amino = true →
        (∀ row ∈ ssRows [ConfEntry.mk 10 20 ("A") ("HELX_P1")] none, row.chain = a.chain_id →
          ¬(row.start ≤ a.res_id ∧ a.res_id ≤ row.stop)) →
        L[i]? = some 3 :=
  c4_amended_loop_default [AtomRec.mk ("A") 99 true (0, 0, 0)] none []
    [ConfEntry.mk 10 20 ("A") ("HELX_P1")] none (by decide)

/-- Claim C5: get_ss_mmcif raises NoSecondaryStructureError exactly when the
struct_conf category is absent, independently of struct_sheet_range; in the
Except model a raised error excludes any produced labels by construction.
(The only other exception the body can raise is the KeyError of line 148,
which is a different condition.) -/
theorem c5_raises_iff_conf_absent (mol : AtomArr) (file : CIFFile) :
    get_ss_mmcif mol file = Except.error SSErr.noSecondaryStructure ↔
      file.struct_conf = none := by
  constructor
  · intro h
    unfold get_ss_mmcif at h
    cases hconf : file.struct_conf with
    | none => rfl
    | some conf =>
      rw [hconf] at h
      simp only at h
      split at h
      · rename_i e2 heq
        cases h
        obtain ⟨a, _, hfa⟩ := mapOrErr_error_mem heq
        unfold lookupAtom at hfa
        split at hfa
        · cases hfa
        · cases hfa
      · cases h
  · intro h
    unfold get_ss_mmcif
    rw [h]

/-- Claim C6: ss_id_to_numeric is total with range a subset of the set
holding 1, 2 and 3; ids containing "HELX" map to 1, ids containing "STRN"
but not "HELX" map to 2, and all remaining ids map to 3. -/
theorem c6_classify_ss_id (s : String) :
    (strHasSub s ("HELX") = true → ss_id_to_numeric s = 1) ∧
    (strHasSub s ("STRN") = true → strHasSub s ("HELX") = false → ss_id_to_numeric s = 2) ∧
    (strHasSub s ("HELX") = false → strHasSub s ("STRN") = false → ss_id_to_numeric s = 3) ∧
    (ss_id_to_numeric s = 1 ∨ ss_id_to_numeric s = 2 ∨ ss_id_to_numeric s = 3) := by
  unfold ss_id_to_numeric
  by_cases h1 : strHasSub s ("HELX") <;> by_cases h2 : strHasSub s ("STRN") <;>
    simp [h1, h2]

/-- Witness for C6 at the four example ids of the spec. -/
theorem c6_witness :
    ss_id_to_numeric ("HELX_LH_PP_P9") = 1 ∧ ss_id_to_numeric ("STRN44") = 2 ∧
    ss_id_to_numeric ("TURN_TY1_P68") = 3 ∧ ss_id_to_numeric ("BEND64") = 3 :=
  ⟨(c6_classify_ss_id _).1 (by decide),
   (c6_classify_ss_id _).2.1 (by decide) (by decide),
   (c6_classify_ss_id _).2.2.1 (by decide) (by decide),
   (c6_classify_ss_id _).2.2.1 (by decide) (by decide)⟩

/-- Claim C7: whenever get_ss_mmcif succeeds, every atom that is not a
standard amino acid carries final label 0, overriding whatever
helix/strand/loop value the annotated ranges produced for it (line 151). -/
theorem c7_nonamino_forces_zero (mol : AtomArr) (file : CIFFile) (L : List Int)
    (h : get_ss_mmcif mol file = Except.ok L) :
    ∀ (i : Nat) (a : AtomRec), mol.atoms[i]? = some a → a.amino = false → L[i]? = some 0 := by
  unfold get_ss_mmcif at h
  cases hconf : file.struct_conf with
  | none => rw [hconf] at h; cases h
  | some conf =>
    rw [hconf] at h
    simp only at h
    split at h
    · cases h
    · rename_i ss hmap
      cases h
      intro i a ha hamino
      have hlen : ss.length = mol.atoms.length := mapOrErr_ok_length hmap
      have hi : i < mol.atoms.length := (List.getElem?_eq_some.mp ha).1
      have hsi := List.getElem?_eq_getElem (show i < ss.length by omega)
      rw [applyAminoMask_getElem? ha hsi, hamino]
      simp

/-- Witness for C7: a non-amino chain-A atom inside the annotated helix
range 10-20 still ends with label 0. -/
theorem c7_witness :
    get_ss_mmcif (AtomArr.mk [AtomRec.mk ("A") 12 false (0, 0, 0)] none []) cexFileHelixA =
      Except.ok [0] ∧
    ([0] : List Int)[0]? = some 0 :=
  ⟨by decide,
   c7_nonamino_forces_zero (AtomArr.mk [AtomRec.mk ("A") 12 false (0, 0, 0)] none [])
     cexFileHelixA [0] (by decide) 0 (AtomRec.mk ("A") 12 false (0, 0, 0)) (by decide) (by decide)⟩

/-- Claim C8: whenever get_ss_mmcif succeeds, the label list has exactly one
entry per atom of the atom array. -/
theorem c8_output_aligned (mol : AtomArr) (file : CIFFile) (L : List Int)
    (h : get_ss_mmcif mol file = Except.ok L) : L.length = mol.atoms.length := by
  unfold get_ss_mmcif at h
  cases hconf : file.struct_conf with
  | none => rw [hconf] at h; cases h
  | some conf =>
    rw [hconf] at h
    simp only at h
    split at h
    · cases h
    · rename_i ss hmap
      cases h
      rw [applyAminoMask_length, mapOrErr_ok_length hmap]
      exact Nat.min_self _

/-- Witness for C8 at a concrete one-atom array. -/
theorem c8_witness :
    get_ss_mmcif cexMolA cexFileHelixA = Except.ok [3] ∧
    ([3] : List Int).length = cexMolA.atoms.length :=
  ⟨by decide, c8_output_aligned cexMolA cexFileHelixA [3] (by decide)⟩

/-- Claim C9 counterexample: two atom arrays with identical chain ids and
identical residue ids but different amino-acid classification (an alanine
versus a het atom at chain A residue 12) give different outputs under equal
annotation tables, so the output is NOT a function of the annotation tables
and the chain/residue identifiers alone. -/
theorem c9_determinism_counterexample :
    (AtomArr.mk [AtomRec.mk ("A") 12 true (0, 0, 0)] none []).atoms.map AtomRec.chain_id =
      (AtomArr.mk [AtomRec.mk ("A") 12 false (0, 0, 0)] none []).atoms.map AtomRec.chain_id ∧
    (AtomArr.mk [AtomRec.mk ("A") 12 true (0, 0, 0)] none []).atoms.map AtomRec.res_id =
      (AtomArr.mk [AtomRec.mk ("A") 12 false (0, 0, 0)] none []).atoms.map AtomRec.res_id ∧
    get_ss_mmcif (AtomArr.mk [AtomRec.mk ("A") 12 true (0, 0, 0)] none []) cexFileHelixA =
      Except.ok [1] ∧
    get_ss_mmcif (AtomArr.mk [AtomRec.mk ("A") 12 false (0, 0, 0)] none []) cexFileHelixA =
      Except.ok [0] ∧
    get_ss_mmcif (AtomArr.mk [AtomRec.mk ("A") 12 true (0, 0, 0)] none []) cexFileHelixA ≠
      get_ss_mmcif (AtomArr.mk [AtomRec.mk ("A") 12 false (0, 0, 0)] none []) cexFileHelixA := by
  decide

/-- Claim C9 as amended: get_ss_mmcif is a pure function of the annotation
tables and the per-atom (chain id, residue id, amino-acid verdict) triples —
two runs agreeing on those agree on the output, whatever the remaining
fields (coordinates, bonds, attached columns) are; no randomness and no
external state. -/
theorem c9_amended_pure_function (mol1 mol2 : AtomArr) (file1 file2 : CIFFile)
    (hfile : file1 = file2)
    (hatoms : mol1.atoms.map projAtom = mol2.atoms.map projAtom) :
    get_ss_mmcif mol1 file1 = get_ss_mmcif mol2 file2 := by
  subst hfile
  unfold get_ss_mmcif
  cases hconf : file1.struct_conf with
  | none => rfl
  | some conf =>
    simp only
    have hmap := mapOrErr_congr projAtom
      (fun (a : AtomRec) => lookupAtom (ssRows conf file1.struct_sheet_range)
        ((ssRows conf file1.struct_sheet_range).map SSRow.chain) a.chain_id a.res_id)
      (fun (t : String × Int × Bool) => lookupAtom (ssRows conf file1.struct_sheet_range)
        ((ssRows conf file1.struct_sheet_range).map SSRow.chain) t.1 t.2.1)
      (fun a => rfl) hatoms
    rw [hmap]
    cases hm2 : mapOrErr (fun a => lookupAtom (ssRows conf file1.struct_sheet_range)
        ((ssRows conf file1.struct_sheet_range).map SSRow.chain) a.chain_id a.res_id) mol2.atoms with
    | error e => rfl
    | ok ss =>
      simp only
      rw [applyAminoMask_congr hatoms]

/-- Witness for the amended C9: two runs on arrays equal up to coordinates
and bond table give the same output. -/
theorem c9_witness :
    get_ss_mmcif (AtomArr.mk [AtomRec.mk ("A") 12 true (0, 0, 0)] none []) cexFileHelixA =
      get_ss_mmcif (AtomArr.mk [AtomRec.mk ("A") 12 true (1, 1, 1)]
        (some (Bonds.fromFile [])) []) cexFileHelixA :=
  c9_amended_pure_function
    (AtomArr.mk [AtomRec.mk ("A") 12 true (0, 0, 0)] none [])
    (AtomArr.mk [AtomRec.mk ("A") 12 true (1, 1, 1)] (some (Bonds.fromFile [])) [])
    cexFileHelixA cexFileHelixA rfl (by decide)

/-- Claim C10: get_ss_mmcif never mutates its atom-array argument — the
state-threaded transcription returns the array unchanged whether it returns
labels or raises, and it computes the same result as the direct model;
attaching the labels happens only in the caller (set_annotation inside
open_structure_local_pdbx, modelled by setAnnotColumn). -/
theorem c10_resolver_leaves_array_unchanged (mol : AtomArr) (file : CIFFile) :
    (get_ss_mmcif_run mol file).2 = mol ∧
    (get_ss_mmcif_run mol file).1 = get_ss_mmcif mol file := by
  constructor
  · unfold get_ss_mmcif_run
    cases hconf : file.struct_conf with
    | none => rfl
    | some conf =>
      simp only
      split <;> rfl
  · unfold get_ss_mmcif_run get_ss_mmcif
    cases hconf : file.struct_conf with
    | none => rfl
    | some conf =>
      simp only
      cases hmap : mapOrErr (fun a => lookupAtom (ssRows conf file.struct_sheet_range)
          ((ssRows conf file.struct_sheet_range).map SSRow.chain) a.chain_id a.res_id) mol.atoms with
      | error e => rfl
      | ok ss => rfl

end MN
